import Mathlib

/-!
Verification of the deepl-cli repository core: the input-resolution and
output-delivery decision logic (cli.py), the translation facade and usage
reporting (translator.py), and the batch / segmentation layer (utils.py).

The Python source is shallowly embedded: strings are Lean strings, Python
string primitives (strip, upper, lower, split, join, membership of a
substring) are modelled by executable functions on the underlying character
lists, the external DeepL provider and the file system / stdin / clipboard
are explicit parameters, and exceptions are Except values.  Thread-pool
completion order in the batch layer is determinized to submission order;
the aggregate counters and the per-file result mapping commute, so the
determinization does not affect any stated property.  Floating-point
percentages are modelled by exact rationals with round-half-to-even.
-/

namespace DeeplCli

/-- Characters treated as whitespace by the Python str.strip default. -/
def isPyWhitespace (c : Char) : Bool :=
  c == ' ' || c == '\t' || c == '\n' || c == '\r' || c == '\x0b' || c == '\x0c'

/-- Model of Python str.strip with no argument: drop whitespace from both ends. -/
def pyStrip (s : String) : String :=
  ⟨((s.data.dropWhile isPyWhitespace).reverse.dropWhile isPyWhitespace).reverse⟩

/-- ASCII uppercase of one character, as Python str.upper does for the
language codes appearing in this program. -/
def pyCharUpper (c : Char) : Char :=
  if 'a' ≤ c && c ≤ 'z' then Char.ofNat (c.toNat - 32) else c

/-- Model of Python str.upper. -/
def pyUpper (s : String) : String := ⟨s.data.map pyCharUpper⟩

/-- ASCII lowercase of one character, as Python str.lower. -/
def pyCharLower (c : Char) : Char :=
  if 'A' ≤ c && c ≤ 'Z' then Char.ofNat (c.toNat + 32) else c

/-- Model of Python str.lower. -/
def pyLower (s : String) : String := ⟨s.data.map pyCharLower⟩

/-- Truthiness of an optional string argument, as Python uses it:
None and the empty string are falsy. -/
def optTruthy : Option String → Bool
  | none => false
  | some s => s != ""

/-- Model of Python sep.join(list): interleave the separator between the
elements. -/
def joinWith (sep : String) : List String → String
  | [] => ""
  | [s] => s
  | s :: t :: rest => s ++ sep ++ joinWith sep (t :: rest)

/-- Does the character list contain two consecutive newline characters?
Models the Python test given by the expression in utils.py line 190,
a double newline occurring inside the text. -/
def hasNlNl : List Char → Bool
  | '\n' :: '\n' :: _ => true
  | _ :: rest => hasNlNl rest
  | [] => false

/-- Does the text contain a double-newline paragraph break? -/
def hasParaBreak (text : String) : Bool := hasNlNl text.data

/-- Model of Python text.split on the two-character separator of a double
newline: non-overlapping, left to right, keeping empty parts. -/
def splitParagraphsAux : List Char → List (List Char)
  | '\n' :: '\n' :: rest => [] :: splitParagraphsAux rest
  | c :: rest =>
    match splitParagraphsAux rest with
    | p :: ps => (c :: p) :: ps
    | [] => [[c]]
  | [] => [[]]

/-- The paragraph list of a text: its split on double newlines. -/
def pySplitParas (text : String) : List String :=
  (splitParagraphsAux text.data).map String.mk

/-- Fixed-size slicing of a character list into consecutive pieces of n
characters (the last piece possibly shorter), with a fuel argument making
the recursion structural; the fuel is instantiated with the length of the
list, which suffices whenever n is positive. -/
def sliceChunksFuel (n : Nat) : Nat → List Char → List (List Char)
  | _, [] => []
  | 0, _ :: _ => []
  | fuel + 1, c :: cs => (c :: cs).take n :: sliceChunksFuel n fuel ((c :: cs).drop n)

/-- Model of the list comprehension in BatchTranslator._split_text for the
non-formatting branch (utils.py line 214): slices of exactly max_size
characters, the last possibly shorter.  Meaningful for max_size positive;
Python range with step 0 raises there. -/
def chunksOf (text : String) (max_size : Nat) : List String :=
  (sliceChunksFuel max_size text.data.length text.data).map String.mk

/-- The running size counter of BatchTranslator._split_text: each paragraph
contributes its length plus 2 for the double-newline separator. -/
def paraSize (paras : List String) : Nat := (paras.map (fun p => p.length + 2)).sum

/-- Join a chunk of accumulated paragraphs with double newlines, as
utils.py lines 227 and 235 do. -/
def joinParas (paras : List String) : String := joinWith "\n\n" paras

/-- The paragraph-accumulation loop of BatchTranslator._split_text
(utils.py lines 222-235): paragraphs are appended to the current chunk
unless adding the next one would push the size counter past max_size and
the current chunk is nonempty, in which case the chunk is closed and a new
one starts with that paragraph. -/
def splitParasLoop (max_size : Nat) : List String → List String → Nat → List String
  | [], cur, _ => if cur = [] then [] else [joinParas cur]
  | para :: rest, cur, cur_size =>
    if max_size < cur_size + (para.length + 2) ∧ cur ≠ [] then
      joinParas cur :: splitParasLoop max_size rest [para] (para.length + 2)
    else
      splitParasLoop max_size rest (cur ++ [para]) (cur_size + (para.length + 2))

/-- BatchTranslator._split_text: fixed-size slicing when formatting is not
preserved, otherwise the paragraph-accumulation split. -/
def split_text (text : String) (max_size : Nat) (preserve_formatting : Bool) : List String :=
  if !preserve_formatting then chunksOf text max_size
  else splitParasLoop max_size (pySplitParas text) [] 0

/-- The segment loop of BatchTranslator.translate_segments: translate each
segment in order, aborting on the first failure, as the Python for loop
does by letting the exception propagate. -/
def translateAll (tr : String → Except String String) : List String → Except String (List String)
  | [] => .ok []
  | seg :: rest =>
    match tr seg with
    | .error e => .error e
    | .ok t =>
      match translateAll tr rest with
      | .error e => .error e
      | .ok ts => .ok (t :: ts)

/-- BatchTranslator.translate_segments (utils.py lines 153-193).  The
translator argument tr stands for the facade call with the target and
source languages already fixed. -/
def translate_segments (tr : String → Except String String) (text : String)
    (segment_size : Nat) (preserve_formatting : Bool) : Except String String :=
  if text.length ≤ segment_size then tr text
  else
    match translateAll tr (split_text text segment_size preserve_formatting) with
    | .error e => .error e
    | .ok ts =>
      if preserve_formatting && hasParaBreak text then .ok (joinWith "\n\n" ts)
      else .ok (joinWith " " ts)

/-- The supported language codes of DeepLTranslator (translator.py). -/
def SUPPORTED_LANGUAGES : List String :=
  ["BG", "CS", "DA", "DE", "EL", "EN", "EN-GB", "EN-US",
   "ES", "ET", "FI", "FR", "HU", "ID", "IT", "JA", "KO",
   "LT", "LV", "NB", "NL", "PL", "PT", "PT-BR", "PT-PT",
   "RO", "RU", "SK", "SL", "SV", "TR", "UK", "ZH"]

/-- DeepLTranslator.is_language_supported: an empty code is unsupported,
otherwise membership of the uppercased code in the registry. -/
def is_language_supported (language : String) : Bool :=
  if language = "" then false else SUPPORTED_LANGUAGES.contains (pyUpper language)

/-- Failure kinds of the external provider, as translator.py distinguishes
them when mapping provider exceptions. -/
inductive ProviderErr
  | quotaExceeded
  | deepl (msg : String)
  | other (msg : String)
deriving DecidableEq

/-- Validation and normalization of the optional source language inside
DeepLTranslator.translate: a falsy value is passed through, otherwise the
code is uppercased and must be in the registry. -/
def validateSourceLang : Option String → Except String (Option String)
  | none => .ok none
  | some s =>
    if s = "" then .ok (some s)
    else
      if is_language_supported (pyUpper s) = false then
        .error ("Unsupported source language: " ++ pyUpper s)
      else .ok (some (pyUpper s))

/-- DeepLTranslator.translate (translator.py lines 132-195).  The provider
argument stands for the external deepl library call; the second component
of the result counts how many provider calls were made. -/
def translate (provider : String → String → Option String → Except ProviderErr String)
    (text target_lang : String) (source_lang : Option String) :
    Except String String × Nat :=
  if text = "" ∨ pyStrip text = "" then (.ok "", 0)
  else
    if is_language_supported (pyUpper target_lang) = false then
      (.error ("Unsupported target language: " ++ pyUpper target_lang), 0)
    else
      match validateSourceLang source_lang with
      | .error e => (.error e, 0)
      | .ok source =>
        match provider text (pyUpper target_lang) source with
        | .ok result => (.ok result, 1)
        | .error .quotaExceeded => (.error "DeepL API quota exceeded", 1)
        | .error (.deepl m) => (.error ("Translation failed: " ++ m), 1)
        | .error (.other m) => (.error ("Unexpected error during translation: " ++ m), 1)

/-- Round a rational to the nearest integer, ties to even, as Python round
does. -/
def roundHalfEven (q : ℚ) : ℤ :=
  if q - ⌊q⌋ < 1/2 then ⌊q⌋
  else if 1/2 < q - ⌊q⌋ then ⌊q⌋ + 1
  else if ⌊q⌋ % 2 = 0 then ⌊q⌋ else ⌊q⌋ + 1

/-- Model of Python round(x, 2). -/
def pyRound2 (q : ℚ) : ℚ := (roundHalfEven (q * 100) : ℚ) / 100

/-- The usage dictionary returned by DeepLTranslator.get_usage. -/
structure UsageSnapshot where
  character_count : Nat
  character_limit : Nat
  usage_percentage : ℚ
deriving DecidableEq

/-- DeepLTranslator.get_usage (translator.py lines 197-232) on the count
and limit reported by the provider: a zero limit yields 100.0 directly,
otherwise the percentage is count over limit times 100; the result is
rounded to two decimal places. -/
def get_usage (character_count character_limit : Nat) : UsageSnapshot :=
  { character_count := character_count
    character_limit := character_limit
    usage_percentage :=
      pyRound2 (if character_limit = 0 then 100
                else (character_count : ℚ) / (character_limit : ℚ) * 100) }

/-- Split a character list around the last occurrence of sep: the parts
before and after it, or none when sep does not occur. -/
def splitLastChar (sep : Char) : List Char → Option (List Char × List Char)
  | [] => none
  | c :: rest =>
    match splitLastChar sep rest with
    | some (b, a) => some (c :: b, a)
    | none => if c = sep then some ([], rest) else none

/-- The stem of a file name (pathlib Path.stem for ordinary names: the name
up to its last dot, the whole name when the only dot is leading). -/
def pathStem (name : List Char) : List Char :=
  match splitLastChar '.' name with
  | some (b, _) => if b = [] then name else b
  | none => name

/-- The suffix of a file name (pathlib Path.suffix for ordinary names). -/
def pathSuffix (name : List Char) : List Char :=
  match splitLastChar '.' name with
  | some (b, a) => if b = [] then [] else '.' :: a
  | none => []

/-- The output path computed by BatchTranslator._translate_single_file
(utils.py lines 142-146): stem, underscore, lowercased target language,
original suffix, placed in the output directory when one is configured and
next to the input file otherwise. -/
def outputPathFor (input_path target_lang : String) (output_dir : Option String) : String :=
  let split := splitLastChar '/' input_path.data
  let name := match split with
    | some (_, a) => a
    | none => input_path.data
  let outName := pathStem name ++ ('_' :: (pyLower target_lang).data) ++ pathSuffix name
  match output_dir with
  | some d => d ++ "/" ++ String.mk outName
  | none =>
    match split with
    | some (b, _) => String.mk (b ++ ('/' :: outName))
    | none => String.mk outName

/-- What reading one batch input file yields: its text, or a failure
message from the raised exception. -/
inductive BatchFileState
  | content (text : String)
  | unreadable (msg : String)
deriving DecidableEq

/-- The environment of a batch run: the readable files, the translation
facade with languages already fixed, and whether output writes succeed. -/
structure BatchEnv where
  files : List (String × BatchFileState)
  translate : String → Except String String
  write_ok : Bool

/-- BatchTranslator._translate_single_file (utils.py lines 113-151): read
the input file, fail when it trims to empty, translate, write the output,
and return the output path with the character count of the source text. -/
def translate_single_file (env : BatchEnv) (input_path target_lang : String)
    (output_dir : Option String) : Except String (String × Nat) :=
  match List.lookup input_path env.files with
  | none => .error ("Failed to read file: " ++ input_path)
  | some (.unreadable msg) => .error msg
  | some (.content text) =>
    if pyStrip text = "" then .error ("File is empty: " ++ input_path)
    else
      match env.translate text with
      | .error e => .error e
      | .ok _ =>
        if env.write_ok then .ok (outputPathFor input_path target_lang output_dir, text.length)
        else .error ("Failed to write output for: " ++ input_path)

/-- One entry of the per-file result mapping of a batch run. -/
inductive FileResult
  | success (output : String) (characters : Nat)
  | failed (error : String)
deriving DecidableEq

/-- The aggregate returned by BatchTranslator.translate_files: the per-file
results and the statistics counters. -/
structure BatchResult where
  results : List (String × FileResult)
  total_files : Nat
  successful : Nat
  failed : Nat
  total_characters : Nat
deriving DecidableEq

/-- The result entry a completed task produces, as the completion loop of
translate_files records it (utils.py lines 82-99). -/
def toFileResult : Except String (String × Nat) → FileResult
  | .ok (out, n) => .success out n
  | .error e => .failed e

/-- One iteration of the completion loop of translate_files: record the
result of the finished task and bump the statistics counters. -/
def batchStep (env : BatchEnv) (target_lang : String) (output_dir : Option String)
    (acc : BatchResult) (file_path : String) : BatchResult :=
  match translate_single_file env file_path target_lang output_dir with
  | .ok (out, n) =>
    { acc with
      results := acc.results ++ [(file_path, .success out n)]
      successful := acc.successful + 1
      total_characters := acc.total_characters + n }
  | .error e =>
    { acc with
      results := acc.results ++ [(file_path, .failed e)]
      failed := acc.failed + 1 }

/-- BatchTranslator.translate_files (utils.py lines 39-111), with the
thread-pool completion order determinized to submission order; the
max_workers bound and the inter-task delay affect only timing and are kept
as parameters.  The batch never aborts: every input file receives exactly
one result entry. -/
def translate_files (env : BatchEnv) (input_files : List String) (target_lang : String)
    (output_dir : Option String) (max_workers : Nat) (delay_between : ℚ) : BatchResult :=
  input_files.foldl (batchStep env target_lang output_dir)
    { results := []
      total_files := input_files.length
      successful := 0
      failed := 0
      total_characters := 0 }

/-- The observable input reads a CLI run can perform. -/
inductive Effect
  | readClipboard
  | readStdin
  | readFile (path : String)
deriving DecidableEq

/-- The error taxonomy of cli.py, one constructor per distinct CLIError
raise site relevant to input handling and validation.  The constructor
noInputProvided is the final InputError of read_input listing every
alternative input method. -/
inductive CLIErr
  | clipboardUnavailable
  | noStdinInput
  | emptyFile (path : String)
  | permissionDenied (path : String)
  | undecodableFile (path : String)
  | noInputProvided
  | targetRequired
  | unsupportedTarget (lang : String)
  | unsupportedSource (lang : String)
  | conflictClipboardStdin
deriving DecidableEq

/-- What the positional token names on the file system, for the file branch
of read_input. -/
inductive CliFileState
  | fileContent (text : String)
  | filePermDenied
  | fileUndecodable
deriving DecidableEq

/-- The parsed command-line arguments of cli.py. -/
structure Args where
  target_lang : Option String
  input_text : Option String
  clipboard : Bool
  stdin : Bool
  source_lang : Option String
  output : Option String
  list_languages : Bool
  usage : Bool
  verbose : Bool
  api_key : Option String

/-- The external world a CLI run interacts with. -/
structure Env where
  stdin_isatty : Bool
  stdin_content : String
  clipboard_available : Bool
  clipboard_content : String
  files : List (String × CliFileState)
  init_ok : Bool
  usage_ok : Bool
  output_writable : Bool
  translate : String → String → Option String → Except String String

/-- The direct-text-or-file rule and the final failure of read_input
(cli.py lines 193-227), reached after the clipboard, explicit-stdin and
piped-stdin rules have fallen through; effs records the reads already
performed. -/
def readDirectOrFile (args : Args) (env : Env) (effs : List Effect) :
    Except CLIErr String × List Effect :=
  match args.input_text with
  | none => (.error .noInputProvided, effs)
  | some s =>
    if s = "" then (.error .noInputProvided, effs)
    else
      match List.lookup s env.files with
      | some (.fileContent c) =>
        if pyStrip c = "" then (.error (.emptyFile s), effs ++ [.readFile s])
        else (.ok c, effs ++ [.readFile s])
      | some .filePermDenied => (.error (.permissionDenied s), effs ++ [.readFile s])
      | some .fileUndecodable => (.error (.undecodableFile s), effs ++ [.readFile s])
      | none => (.ok s, effs)

/-- read_input of cli.py (lines 148-232): clipboard first, then explicit
stdin (flag or dash sentinel), then auto-detected piped stdin which falls
through when its content trims to empty, then direct text or file, then
the final InputError.  The effect list records which sources were read. -/
def read_input (args : Args) (env : Env) : Except CLIErr String × List Effect :=
  if args.clipboard then
    if env.clipboard_available = false then (.error .clipboardUnavailable, [])
    else (.ok env.clipboard_content, [.readClipboard])
  else if args.stdin = true ∨ args.input_text = some "-" then
    if pyStrip env.stdin_content = "" then (.error .noStdinInput, [.readStdin])
    else (.ok env.stdin_content, [.readStdin])
  else if env.stdin_isatty = false ∧ pyStrip env.stdin_content ≠ "" then
    (.ok env.stdin_content, [.readStdin])
  else
    readDirectOrFile args env (if env.stdin_isatty then [] else [.readStdin])

/-- Validation and normalization of the source language inside
validate_arguments: a falsy value is left as it is, otherwise the code is
uppercased and must be supported. -/
def validateSourceLangCli : Option String → Except CLIErr (Option String)
  | none => .ok none
  | some s =>
    if s = "" then .ok (some s)
    else
      if is_language_supported (pyUpper s) = false then
        .error (.unsupportedSource (pyUpper s))
      else .ok (some (pyUpper s))

/-- The conflicting-options check at the end of validate_arguments (cli.py
lines 385-389). -/
def conflictCheck (args : Args) : Except CLIErr Args :=
  if args.clipboard = true ∧ (args.stdin = true ∨ args.input_text = some "-") then
    .error .conflictClipboardStdin
  else .ok args

/-- validate_arguments of cli.py (lines 347-389): skipped for the special
commands, then target language presence and membership, then source
language membership, then the clipboard-stdin conflict. -/
def validate_arguments (args : Args) : Except CLIErr Args :=
  if args.list_languages = true ∨ args.usage = true then .ok args
  else if optTruthy args.target_lang = false then .error .targetRequired
  else
    if is_language_supported (pyUpper (args.target_lang.getD "")) = false then
      .error (.unsupportedTarget (pyUpper (args.target_lang.getD "")))
    else
      match validateSourceLangCli args.source_lang with
      | .error e => .error e
      | .ok sl =>
        conflictCheck { args with
          target_lang := some (pyUpper (args.target_lang.getD ""))
          source_lang := sl }

/-- Success of write_output (cli.py lines 235-278) in the given world:
clipboard sink needs the backend, a file sink needs a writable path, and
stdout always succeeds. -/
def writeOutputOk (args : Args) (env : Env) : Bool :=
  if args.clipboard then env.clipboard_available
  else
    match args.output with
    | some o => if o = "" then true else env.output_writable
    | none => true

/-- The main entry point of cli.py (lines 392-459), returning the exit code
and the input reads performed: list-languages first, then argument
validation, then translator initialization, then the usage command, then
input resolution, translation and output delivery; every handled error
yields exit code 1. -/
def mainRun (args : Args) (env : Env) : Nat × List Effect :=
  if args.list_languages then (0, [])
  else
    match validate_arguments args with
    | .error _ => (1, [])
    | .ok args2 =>
      if env.init_ok = false then (1, [])
      else if args2.usage then (if env.usage_ok then 0 else 1, [])
      else
        match read_input args2 env with
        | (.error _, effs) => (1, effs)
        | (.ok input_text, effs) =>
          if pyStrip input_text = "" then (1, effs)
          else
            match env.translate input_text (args2.target_lang.getD "") args2.source_lang with
            | .error _ => (1, effs)
            | .ok translated =>
              if translated = "" then (1, effs)
              else if writeOutputOk args2 env then (0, effs) else (1, effs)

/-- A concrete batch environment realizing the two-file scenario of the
spec: source texts of 11 and 12 characters, a translator that succeeds,
writable outputs. -/
def envBatchTwo : BatchEnv :=
  { files := [("f1", .content "hello world"), ("f2", .content "test content")]
    translate := Except.ok
    write_ok := true }

/-- A concrete batch environment where one file trims to empty and
therefore fails its task. -/
def envBatchFail : BatchEnv :=
  { files := [("good", .content "hello world"), ("bad", .content "   ")]
    translate := Except.ok
    write_ok := true }

/-- Concrete arguments requesting clipboard together with the dash
sentinel, for the conflict scenario. -/
def argsConflict : Args :=
  { target_lang := some "JA"
    input_text := some "-"
    clipboard := true
    stdin := false
    source_lang := none
    output := none
    list_languages := false
    usage := false
    verbose := false
    api_key := none }

/-- Concrete arguments of a plain translation invocation with no input
source given. -/
def argsPlain : Args :=
  { target_lang := some "JA"
    input_text := none
    clipboard := false
    stdin := false
    source_lang := none
    output := none
    list_languages := false
    usage := false
    verbose := false
    api_key := none }

/-- Concrete arguments with an unsupported target language. -/
def argsBadTarget : Args :=
  { argsPlain with target_lang := some "XX" }

/-- A concrete world where stdin is a pipe carrying only whitespace. -/
def envPipedEmpty : Env :=
  { stdin_isatty := false
    stdin_content := "  \n"
    clipboard_available := true
    clipboard_content := "clip"
    files := []
    init_ok := true
    usage_ok := true
    output_writable := true
    translate := fun _ _ _ => Except.ok "ok" }

/-! ## Helper lemmas -/

/-- The length of a double-newline join of a nonempty paragraph chunk is
its running size counter minus the final separator allowance. -/
theorem joinParas_length : ∀ (l : List String), l ≠ [] → (joinParas l).length + 2 = paraSize l
  | [], h => absurd rfl h
  | [s], _ => by simp [joinParas, joinWith, paraSize]
  | s :: t :: rest, _ => by
    have ih := joinParas_length (t :: rest) (by simp)
    have h2 : ("\n\n" : String).length = 2 := rfl
    simp only [joinParas, joinWith, paraSize, List.map_cons, List.sum_cons,
      String.length_append, h2] at ih ⊢
    omega

/-- The paragraph-accumulation loop produces exactly the joins of a
partition of its input paragraphs into nonempty consecutive groups, and
every group of two or more paragraphs respects the size counter bound. -/
theorem splitParasLoop_spec (max_size : Nat) :
    ∀ (paras cur : List String), (2 ≤ cur.length → paraSize cur ≤ max_size) →
    ∃ groups : List (List String),
      splitParasLoop max_size paras cur (paraSize cur) = groups.map joinParas ∧
      groups.flatten = cur ++ paras ∧
      (∀ g ∈ groups, g ≠ []) ∧
      (∀ g ∈ groups, 2 ≤ g.length → paraSize g ≤ max_size) := by
  intro paras
  induction paras with
  | nil =>
    intro cur hcur
    by_cases hc : cur = []
    · exact ⟨[], by simp [splitParasLoop, hc], by simp [hc], by simp, by simp⟩
    · refine ⟨[cur], by simp [splitParasLoop, hc], by simp, by simpa using hc, ?_⟩
      intro g hg
      have hg2 : g = cur := by simpa using hg
      subst hg2
      exact hcur
  | cons para rest ih =>
    intro cur hcur
    simp only [splitParasLoop]
    by_cases hcond : max_size < paraSize cur + (para.length + 2) ∧ cur ≠ []
    · rw [if_pos hcond]
      have hps : para.length + 2 = paraSize [para] := by simp [paraSize]
      obtain ⟨groups, hm, hf, hn, hb⟩ := ih [para] (by intro h; simp at h)
      rw [hps, hm]
      refine ⟨cur :: groups, by simp, by simp [hf], ?_, ?_⟩
      · intro g hg
        rcases List.mem_cons.mp hg with rfl | hg2
        · exact hcond.2
        · exact hn g hg2
      · intro g hg
        rcases List.mem_cons.mp hg with rfl | hg2
        · exact hcur
        · exact hb g hg2
    · rw [if_neg hcond]
      have hps : paraSize cur + (para.length + 2) = paraSize (cur ++ [para]) := by
        simp [paraSize, List.map_append, List.sum_append]
      rw [hps]
      have hbound : 2 ≤ (cur ++ [para]).length → paraSize (cur ++ [para]) ≤ max_size := by
        intro h2
        rcases not_and_or.mp hcond with hA | hB
        · rw [← hps]
          exact Nat.le_of_not_lt hA
        · have hc : cur = [] := not_not.mp hB
          subst hc
          simp at h2
      obtain ⟨groups, hm, hf, hn, hb⟩ := ih (cur ++ [para]) hbound
      refine ⟨groups, hm, ?_, hn, hb⟩
      rw [hf]
      simp


/-- Slicing the empty list yields no chunks, for any fuel. -/
theorem sliceChunksFuel_nil (n fuel : Nat) : sliceChunksFuel n fuel [] = [] := by
  cases fuel <;> rfl

/-- With enough fuel and a positive width, the slices concatenate back to
the original list. -/
theorem sliceChunksFuel_flatten (n : Nat) (hn : n ≠ 0) :
    ∀ (fuel : Nat) (l : List Char), l.length ≤ fuel →
      (sliceChunksFuel n fuel l).flatten = l := by
  intro fuel
  induction fuel with
  | zero =>
    intro l hl
    have : l = [] := List.length_eq_zero.mp (Nat.le_zero.mp hl)
    subst this
    simp [sliceChunksFuel_nil]
  | succ fuel ih =>
    intro l hl
    cases l with
    | nil => simp [sliceChunksFuel_nil]
    | cons c cs =>
      simp only [sliceChunksFuel, List.flatten_cons]
      rw [ih]
      · exact List.take_append_drop n (c :: cs)
      · rw [List.length_drop]
        simp only [List.length_cons] at hl ⊢
        omega

/-- Every slice has length at most the slice width. -/
theorem sliceChunksFuel_le (n : Nat) :
    ∀ (fuel : Nat) (l : List Char), ∀ ch ∈ sliceChunksFuel n fuel l, ch.length ≤ n := by
  intro fuel
  induction fuel with
  | zero =>
    intro l ch hch
    cases l <;> simp [sliceChunksFuel] at hch
  | succ fuel ih =>
    intro l ch hch
    cases l with
    | nil => simp [sliceChunksFuel] at hch
    | cons c cs =>
      simp only [sliceChunksFuel] at hch
      rcases List.mem_cons.mp hch with rfl | hch2
      · simp only [List.length_take]
        exact Nat.min_le_left n (c :: cs).length
      · exact ih _ ch hch2

/-- Membership in the front part of a nonempty cons list: the head, when
the tail is nonempty, or membership in the front part of the tail. -/
theorem mem_dropLast_cons {α : Type} {a : α} {l : List α} {x : α}
    (hx : x ∈ (a :: l).dropLast) (hl : l ≠ []) : x = a ∨ x ∈ l.dropLast := by
  cases l with
  | nil => exact absurd rfl hl
  | cons b t =>
    rw [List.dropLast_cons₂] at hx
    rcases List.mem_cons.mp hx with rfl | hx2
    · exact Or.inl rfl
    · exact Or.inr hx2

/-- With enough fuel and a positive width, every slice except possibly the
last has length exactly the slice width. -/
theorem sliceChunksFuel_dropLast (n : Nat) (hn : n ≠ 0) :
    ∀ (fuel : Nat) (l : List Char), l.length ≤ fuel →
      ∀ ch ∈ (sliceChunksFuel n fuel l).dropLast, ch.length = n := by
  intro fuel
  induction fuel with
  | zero =>
    intro l hl ch hch
    have : l = [] := List.length_eq_zero.mp (Nat.le_zero.mp hl)
    subst this
    simp [sliceChunksFuel_nil] at hch
  | succ fuel ih =>
    intro l hl ch hch
    cases l with
    | nil => simp [sliceChunksFuel_nil] at hch
    | cons c cs =>
      simp only [sliceChunksFuel] at hch
      by_cases hrest : sliceChunksFuel n fuel ((c :: cs).drop n) = []
      · rw [hrest] at hch
        simp at hch
      · have hlen : n < (c :: cs).length := by
          by_contra hle
          have : (c :: cs).drop n = [] := by
            apply List.drop_eq_nil_of_le
            omega
          rw [this, sliceChunksFuel_nil] at hrest
          exact hrest rfl
        rcases mem_dropLast_cons hch hrest with rfl | hch2
        · simp only [List.length_take]
          omega
        · apply ih ((c :: cs).drop n) _ ch hch2
          have hd : ((c :: cs).drop n).length = (c :: cs).length - n := List.length_drop n (c :: cs)
          simp only [List.length_cons] at hl hd ⊢
          omega

/-! ## Claim theorems: segmenter -/

/-- Claim C7: every chunk produced by the paragraph-boundary split either
has length at most max_chunk or is itself one single paragraph of the text
kept whole; the chunk list is the double-newline join of a partition of
the paragraph list into nonempty consecutive runs, so no paragraph is ever
split across two chunks. -/
theorem c7_paragraph_split_invariant (text : String) (max_chunk : Nat) :
    ∃ groups : List (List String),
      groups.flatten = pySplitParas text ∧
      split_text text max_chunk true = groups.map joinParas ∧
      (∀ g ∈ groups, g ≠ []) ∧
      (∀ seg ∈ split_text text max_chunk true,
        seg.length ≤ max_chunk ∨ seg ∈ pySplitParas text) := by
  obtain ⟨groups, hm, hf, hn, hb⟩ :=
    splitParasLoop_spec max_chunk (pySplitParas text) [] (by intro h; simp at h)
  have h0 : paraSize ([] : List String) = 0 := rfl
  rw [h0] at hm
  have hsplit : split_text text max_chunk true = groups.map joinParas := by
    show splitParasLoop max_chunk (pySplitParas text) [] 0 = groups.map joinParas
    exact hm
  refine ⟨groups, by simpa using hf, hsplit, hn, ?_⟩
  intro seg hseg
  rw [hsplit] at hseg
  obtain ⟨g, hg, rfl⟩ := List.mem_map.mp hseg
  cases g with
  | nil => exact absurd rfl (hn [] hg)
  | cons p t =>
    cases t with
    | nil =>
      right
      have hp : p ∈ groups.flatten := List.mem_flatten.mpr ⟨[p], hg, by simp⟩
      rw [hf] at hp
      simpa [joinParas, joinWith] using hp
    | cons q t2 =>
      left
      have hlen := joinParas_length (p :: q :: t2) (by simp)
      have hbd := hb (p :: q :: t2) hg (by simp [List.length_cons])
      omega

/-- Claim C7 witness at a concrete text: the invariant instantiated where
one paragraph is longer than the chunk limit. -/
theorem c7_witness :
    ∃ groups : List (List String),
      groups.flatten = pySplitParas "aa\n\nbbbbbbbb\n\ncc" ∧
      split_text "aa\n\nbbbbbbbb\n\ncc" 5 true = groups.map joinParas ∧
      (∀ g ∈ groups, g ≠ []) ∧
      (∀ seg ∈ split_text "aa\n\nbbbbbbbb\n\ncc" 5 true,
        seg.length ≤ 5 ∨ seg ∈ pySplitParas "aa\n\nbbbbbbbb\n\ncc") :=
  c7_paragraph_split_invariant "aa\n\nbbbbbbbb\n\ncc" 5

/-- Claim C1 fails on the code as stated: a text longer than max_chunk
containing no double-newline paragraph break is not sliced into fixed-size
chunks by the paragraph-preserving split that translate_segments uses by
default; it stays one single chunk equal to the whole text. -/
theorem c1_counterexample :
    5 < ("abcdefgh" : String).length ∧
    hasParaBreak "abcdefgh" = false ∧
    split_text "abcdefgh" 5 true = ["abcdefgh"] ∧
    split_text "abcdefgh" 5 true ≠ ["abcde", "fgh"] := by
  decide

/-- Claim C1 (amended): under the default paragraph-preserving mode used
by translate_segments, a text longer than max_chunk with no paragraph
break is kept as one single chunk, the whole text, and translated in one
call; fixed-size slicing into consecutive slices of exactly max_chunk
characters (the last possibly shorter, concatenating back to the text)
happens only when formatting preservation is disabled. -/
theorem c1_no_break_single_chunk
    (tr : String → Except String String) (text : String) (max_chunk : Nat)
    (hn : 0 < max_chunk) (hlen : max_chunk < text.length)
    (hnp : pySplitParas text = [text]) :
    split_text text max_chunk true = [text] ∧
    translate_segments tr text max_chunk true = tr text ∧
    split_text text max_chunk false = chunksOf text max_chunk ∧
    (∀ ch ∈ chunksOf text max_chunk, ch.length ≤ max_chunk) ∧
    (∀ ch ∈ (chunksOf text max_chunk).dropLast, ch.length = max_chunk) ∧
    ((chunksOf text max_chunk).map String.data).flatten = text.data := by
  have hA : split_text text max_chunk true = [text] := by
    show splitParasLoop max_chunk (pySplitParas text) [] 0 = [text]
    rw [hnp]
    simp [splitParasLoop, joinParas, joinWith]
  refine ⟨hA, ?_, rfl, ?_, ?_, ?_⟩
  · simp only [translate_segments, hA]
    rw [if_neg (by omega : ¬ text.length ≤ max_chunk)]
    simp only [translateAll]
    cases htr : tr text with
    | error e => simp [htr]
    | ok t => cases hpb : hasParaBreak text <;> simp [htr, hpb, joinWith]
  · intro ch hch
    simp only [chunksOf] at hch
    obtain ⟨lc, hlc, rfl⟩ := List.mem_map.mp hch
    rw [String.length_mk]
    exact sliceChunksFuel_le max_chunk text.data.length text.data lc hlc
  · intro ch hch
    simp only [chunksOf, ← List.map_dropLast] at hch
    obtain ⟨lc, hlc, rfl⟩ := List.mem_map.mp hch
    rw [String.length_mk]
    exact sliceChunksFuel_dropLast max_chunk (by omega) text.data.length text.data
      (Nat.le_refl _) lc hlc
  · simp only [chunksOf, List.map_map]
    have hid : (String.data ∘ String.mk) = (id : List Char → List Char) := funext fun _ => rfl
    rw [hid, List.map_id]
    exact sliceChunksFuel_flatten max_chunk (by omega) text.data.length text.data (Nat.le_refl _)

/-- Claim C1 witness: the amended statement at a concrete eight-character
text with chunk limit five. -/
theorem c1_witness :
    split_text "abcdefgh" 5 true = ["abcdefgh"] ∧
    translate_segments Except.ok "abcdefgh" 5 true = Except.ok "abcdefgh" ∧
    split_text "abcdefgh" 5 false = chunksOf "abcdefgh" 5 ∧
    (∀ ch ∈ chunksOf "abcdefgh" 5, ch.length ≤ 5) ∧
    (∀ ch ∈ (chunksOf "abcdefgh" 5).dropLast, ch.length = 5) ∧
    ((chunksOf "abcdefgh" 5).map String.data).flatten = "abcdefgh".data :=
  c1_no_break_single_chunk Except.ok "abcdefgh" 5 (by decide) (by decide) (by decide)

/-- Claim C8: when a large text splits into more than one chunk, the
translated chunks are rejoined with a double newline when the original
text contains a double-newline paragraph break, and with a single space
otherwise. -/
theorem c8_rejoin_separator (tr : String → Except String String) (text : String)
    (max_chunk : Nat) (ts : List String)
    (hlen : max_chunk < text.length)
    (hmulti : 1 < (split_text text max_chunk true).length)
    (hok : translateAll tr (split_text text max_chunk true) = Except.ok ts) :
    translate_segments tr text max_chunk true =
      Except.ok (joinWith (if hasParaBreak text then "\n\n" else " ") ts) := by
  simp only [translate_segments]
  rw [if_neg (by omega : ¬ text.length ≤ max_chunk)]
  rw [hok]
  cases hpb : hasParaBreak text <;> simp [hpb]

/-- Claim C8 witness: a two-paragraph text of ten characters with chunk
limit five is rejoined with a double newline. -/
theorem c8_witness :
    translate_segments Except.ok "aaaa\n\nbbbb" 5 true = Except.ok "aaaa\n\nbbbb" := by
  have h := c8_rejoin_separator Except.ok "aaaa\n\nbbbb" 5 ["aaaa", "bbbb"]
    (by decide) (by decide) rfl
  have h2 : joinWith (if hasParaBreak "aaaa\n\nbbbb" then "\n\n" else " ") ["aaaa", "bbbb"]
      = "aaaa\n\nbbbb" := by decide
  rw [h, h2]

/-! ## Claim theorems: translation facade and usage -/

/-- Claim C9: input that is empty or trims to empty makes the facade
translate return the empty string immediately, with zero provider calls
and no error, whatever the target and source language arguments are. -/
theorem c9_empty_input_short_circuit
    (provider : String → String → Option String → Except ProviderErr String)
    (text target_lang : String) (source_lang : Option String)
    (h : pyStrip text = "") :
    translate provider text target_lang source_lang = (Except.ok "", 0) := by
  simp [translate, h]

/-- Claim C9 witness: whitespace input, an unsupported target code, an
unsupported source code and a provider that would fail if called. -/
theorem c9_witness :
    translate (fun _ _ _ => Except.error (ProviderErr.other "unreachable"))
      " \t\n" "ZZ" (some "QQ") = (Except.ok "", 0) :=
  c9_empty_input_short_circuit
    (fun _ _ _ => Except.error (ProviderErr.other "unreachable"))
    " \t\n" "ZZ" (some "QQ") rfl

/-- Claim C6 fails on the code as stated: the percentage is not exactly
used over limit times 100 because get_usage rounds it to two decimal
places; one character used out of a three-character limit yields 33.33
rather than one hundred thirds. -/
theorem c6_counterexample :
    (get_usage 1 3).usage_percentage = 3333 / 100 ∧
    (get_usage 1 3).usage_percentage ≠ (1 : ℚ) / 3 * 100 := by
  have hfloor : ⌊((1 : ℚ) / 3 * 100 * 100)⌋ = 3333 := by norm_num
  have h1 : (get_usage 1 3).usage_percentage = 3333 / 100 := by
    simp only [get_usage, pyRound2, roundHalfEven]
    norm_num [hfloor]
  refine ⟨h1, ?_⟩
  rw [h1]
  norm_num

/-- Claim C6 (amended): get_usage computes the percentage as used over
limit times 100 rounded half-to-even to two decimal places, a zero limit
is defined to yield exactly 100 rather than a division fault, and the
concrete pair of 1000 used out of 500000 yields exactly 0.2. -/
theorem c6_usage_percentage (character_count character_limit : Nat)
    (h : character_limit ≠ 0) :
    (get_usage character_count character_limit).usage_percentage
      = pyRound2 ((character_count : ℚ) / (character_limit : ℚ) * 100) ∧
    (∀ count : Nat, (get_usage count 0).usage_percentage = 100) ∧
    (get_usage 1000 500000).usage_percentage = 1 / 5 := by
  refine ⟨by simp [get_usage, h], ?_, ?_⟩
  · intro count
    simp only [get_usage, pyRound2, roundHalfEven]
    norm_num
  · have hv : ((1000 : ℚ) / 500000 * 100) = 1 / 5 := by norm_num
    simp only [get_usage, pyRound2, roundHalfEven]
    norm_num [hv]

/-- Claim C6 witness: the amended statement applied at the concrete pair
from the spec scenario. -/
theorem c6_witness :
    (get_usage 1000 500000).usage_percentage
      = pyRound2 ((1000 : ℚ) / (500000 : ℚ) * 100) ∧
    (∀ count : Nat, (get_usage count 0).usage_percentage = 100) ∧
    (get_usage 1000 500000).usage_percentage = 1 / 5 :=
  c6_usage_percentage 1000 500000 (by norm_num)

/-! ## Claim theorems: batch orchestration -/

/-- The completion loop of translate_files, folded from any accumulator,
appends one result entry per file determined only by that file, and its
counters accumulate per-file contributions. -/
theorem batch_foldl_spec (env : BatchEnv) (target_lang : String) (output_dir : Option String) :
    ∀ (files : List String) (acc : BatchResult),
      (files.foldl (batchStep env target_lang output_dir) acc).results
        = acc.results ++ files.map (fun g =>
            (g, toFileResult (translate_single_file env g target_lang output_dir))) ∧
      (files.foldl (batchStep env target_lang output_dir) acc).total_characters
        = acc.total_characters + (files.map (fun g =>
            match translate_single_file env g target_lang output_dir with
            | .ok (_, n) => n
            | .error _ => 0)).sum ∧
      (files.foldl (batchStep env target_lang output_dir) acc).successful
        = acc.successful
          + files.countP (fun g => (translate_single_file env g target_lang output_dir).isOk) ∧
      (files.foldl (batchStep env target_lang output_dir) acc).total_files = acc.total_files := by
  intro files
  induction files with
  | nil => intro acc; simp
  | cons f fs ih =>
    intro acc
    simp only [List.foldl_cons, List.map_cons, List.sum_cons, List.countP_cons]
    obtain ⟨h1, h2, h3, h4⟩ := ih (batchStep env target_lang output_dir acc f)
    cases h : translate_single_file env f target_lang output_dir with
    | ok p =>
      obtain ⟨out, n⟩ := p
      refine ⟨?_, ?_, ?_, ?_⟩
      · rw [h1]
        simp [batchStep, h, toFileResult]
      · rw [h2]
        simp only [batchStep, h]
        omega
      · rw [h3]
        simp [batchStep, h, Except.isOk, Except.toBool]
        try omega
      · rw [h4]
        simp [batchStep, h]
    | error e =>
      refine ⟨?_, ?_, ?_, ?_⟩
      · rw [h1]
        simp [batchStep, h, toFileResult]
      · rw [h2]
        simp only [batchStep, h]
        omega
      · rw [h3]
        simp [batchStep, h, Except.isOk, Except.toBool]
        try omega
      · rw [h4]
        simp [batchStep, h]

/-- Claim C4: a failing task of a batch never aborts the batch; every
input file receives exactly one result entry determined only by its own
task, a failed file is recorded with a failed status carrying the error
message, and the entries of all other files are exactly what their own
tasks produce. -/
theorem c4_batch_failure_isolation (env : BatchEnv) (input_files : List String)
    (target_lang : String) (output_dir : Option String) (max_workers : Nat)
    (delay_between : ℚ) (f e : String)
    (hf : f ∈ input_files)
    (he : translate_single_file env f target_lang output_dir = Except.error e) :
    (f, FileResult.failed e)
      ∈ (translate_files env input_files target_lang output_dir max_workers delay_between).results ∧
    (translate_files env input_files target_lang output_dir max_workers delay_between).results
      = input_files.map (fun g =>
          (g, toFileResult (translate_single_file env g target_lang output_dir))) ∧
    (translate_files env input_files target_lang output_dir max_workers
        delay_between).results.length = input_files.length := by
  obtain ⟨h1, h2, h3, h4⟩ := batch_foldl_spec env target_lang output_dir input_files
    { results := []
      total_files := input_files.length
      successful := 0
      failed := 0
      total_characters := 0 }
  have hres : (translate_files env input_files target_lang output_dir max_workers
      delay_between).results
      = input_files.map (fun g =>
          (g, toFileResult (translate_single_file env g target_lang output_dir))) := by
    show (input_files.foldl (batchStep env target_lang output_dir) _).results = _
    rw [h1]
    simp
  refine ⟨?_, hres, by rw [hres]; simp⟩
  rw [hres]
  refine List.mem_map.mpr ⟨f, hf, ?_⟩
  rw [he]
  rfl

/-- Claim C4 witness: a two-file batch where the second file is blank;
its task fails with the empty-file message and both files keep their own
entries. -/
theorem c4_witness :
    (("bad", FileResult.failed "File is empty: bad")
      ∈ (translate_files envBatchFail ["good", "bad"] "JA" none 1 (1 / 2)).results) ∧
    (translate_files envBatchFail ["good", "bad"] "JA" none 1 (1 / 2)).results
      = ["good", "bad"].map (fun g =>
          (g, toFileResult (translate_single_file envBatchFail g "JA" none))) ∧
    (translate_files envBatchFail ["good", "bad"] "JA" none 1 (1 / 2)).results.length = 2 :=
  c4_batch_failure_isolation envBatchFail ["good", "bad"] "JA" none 1 (1 / 2)
    "bad" "File is empty: bad" (by simp) rfl

/-- Claim C5: the aggregate character total of a batch is the sum over
the successful tasks of the character counts they report, each of which
is the length of the source text read from the input file, never the
translated output; and the concrete two-file batch of 11 and 12 source
characters with one worker totals 23 characters with 2 successes. -/
theorem c5_total_characters_input_sum (env : BatchEnv) (input_files : List String)
    (target_lang : String) (output_dir : Option String) (max_workers : Nat)
    (delay_between : ℚ) :
    (translate_files env input_files target_lang output_dir max_workers
        delay_between).total_characters
      = (input_files.map (fun g =>
          match translate_single_file env g target_lang output_dir with
          | .ok (_, n) => n
          | .error _ => 0)).sum ∧
    (∀ f out n, translate_single_file env f target_lang output_dir = Except.ok (out, n) →
      ∃ t, List.lookup f env.files = some (BatchFileState.content t) ∧
        pyStrip t ≠ "" ∧ n = t.length) ∧
    (translate_files envBatchTwo ["f1", "f2"] "JA" none 1 (1 / 2)).total_characters = 23 ∧
    (translate_files envBatchTwo ["f1", "f2"] "JA" none 1 (1 / 2)).successful = 2 := by
  refine ⟨?_, ?_, by decide, by decide⟩
  · obtain ⟨h1, h2, h3, h4⟩ := batch_foldl_spec env target_lang output_dir input_files
      { results := []
        total_files := input_files.length
        successful := 0
        failed := 0
        total_characters := 0 }
    show (input_files.foldl (batchStep env target_lang output_dir) _).total_characters = _
    rw [h2]
    simp
  · intro f out n h
    simp only [translate_single_file] at h
    cases hl : List.lookup f env.files with
    | none => simp [hl] at h
    | some st =>
      cases st with
      | unreadable m => simp [hl] at h
      | content t =>
        simp only [hl] at h
        by_cases hs : pyStrip t = ""
        · simp [hs] at h
        · rw [if_neg hs] at h
          cases htr : env.translate t with
          | error e2 => simp [htr] at h
          | ok tt =>
            simp only [htr] at h
            by_cases hw : env.write_ok = true
            · simp only [if_pos hw, Except.ok.injEq, Prod.mk.injEq] at h
              exact ⟨t, rfl, hs, h.2.symm⟩
            · rw [if_neg hw] at h
              simp at h

/-- Claim C5 witness: the scenario instance together with the input-count
fact for the first file. -/
theorem c5_witness :
    (translate_files envBatchTwo ["f1", "f2"] "JA" none 1 (1 / 2)).total_characters = 23 ∧
    (translate_files envBatchTwo ["f1", "f2"] "JA" none 1 (1 / 2)).successful = 2 ∧
    (∃ t, List.lookup "f1" envBatchTwo.files = some (BatchFileState.content t) ∧
      pyStrip t ≠ "" ∧ 11 = t.length) := by
  have h := c5_total_characters_input_sum envBatchTwo ["f1", "f2"] "JA" none 1 (1 / 2)
  exact ⟨h.2.2.1, h.2.2.2, h.2.1 "f1" (outputPathFor "f1" "JA" none) 11 rfl⟩

/-! ## Claim theorems: CLI argument validation and input resolution -/

/-- When the clipboard flag is combined with a stdin-flavored request on a
translation invocation, validate_arguments never succeeds. -/
theorem validate_conflict_not_ok (args : Args)
    (hc : args.clipboard = true) (hs : args.stdin = true ∨ args.input_text = some "-")
    (hl : args.list_languages = false) (hu : args.usage = false) :
    ∀ args2, validate_arguments args ≠ Except.ok args2 := by
  intro args2 hv
  simp only [validate_arguments, hl, hu] at hv
  simp only [Bool.false_eq_true, or_self, if_false] at hv
  split at hv
  · exact Except.noConfusion hv
  · split at hv
    · exact Except.noConfusion hv
    · split at hv
      · exact Except.noConfusion hv
      · simp only [conflictCheck, hc] at hv
        rcases hs with hs | hs <;> simp [hs] at hv

/-- Claim C2: whenever the clipboard flag is set together with any
stdin-flavored request (the explicit stdin flag or the dash token), the
run performs no input read at all, every translation invocation exits
with code 1, and whenever the language arguments themselves validate the
failure is precisely the clipboard-stdin configuration error. -/
theorem c2_clipboard_stdin_conflict (args : Args) (env : Env)
    (hc : args.clipboard = true) (hs : args.stdin = true ∨ args.input_text = some "-") :
    (mainRun args env).2 = [] ∧
    (args.list_languages = false → args.usage = false → (mainRun args env).1 = 1) ∧
    (args.list_languages = false → args.usage = false →
      optTruthy args.target_lang = true →
      is_language_supported (pyUpper (args.target_lang.getD "")) = true →
      (∃ sl, validateSourceLangCli args.source_lang = Except.ok sl) →
      validate_arguments args = Except.error CLIErr.conflictClipboardStdin) := by
  refine ⟨?_, ?_, ?_⟩
  · by_cases hl : args.list_languages = true
    · simp [mainRun, hl]
    · have hl2 : args.list_languages = false := by
        cases h2 : args.list_languages
        · rfl
        · exact absurd h2 hl
      cases hv : validate_arguments args with
      | error e => simp [mainRun, hl2, hv]
      | ok args2 =>
        by_cases hu : args.usage = true
        · have hargs : args2 = args := by
            simp only [validate_arguments, hu, or_true, if_true] at hv
            exact (Except.ok.inj hv).symm
          subst hargs
          simp only [mainRun, hl2, hv]
          cases hio : env.init_ok <;> cases huo : env.usage_ok <;> simp [hu, hio, huo]
        · have hu2 : args.usage = false := by
            cases h2 : args.usage
            · rfl
            · exact absurd h2 hu
          exact absurd hv (validate_conflict_not_ok args hc hs hl2 hu2 args2)
  · intro hl hu
    cases hv : validate_arguments args with
    | error e => simp [mainRun, hl, hv]
    | ok args2 => exact absurd hv (validate_conflict_not_ok args hc hs hl hu args2)
  · intro hl hu ht hsup hsl
    obtain ⟨sl, hsl⟩ := hsl
    simp only [validate_arguments, hl, hu, ht, hsup, hsl, Bool.false_eq_true, or_self,
      if_false, Bool.true_eq_false, conflictCheck, hc]
    rcases hs with hs | hs <;> simp [hs]

/-- Claim C2 witness: concrete arguments combining the clipboard flag with
the dash sentinel in a piped world. -/
theorem c2_witness :
    (mainRun argsConflict envPipedEmpty).2 = [] ∧
    validate_arguments argsConflict = Except.error CLIErr.conflictClipboardStdin := by
  have h := c2_clipboard_stdin_conflict argsConflict envPipedEmpty rfl (Or.inr rfl)
  exact ⟨h.1, h.2.2 rfl rfl (by decide) (by decide) ⟨none, rfl⟩⟩

/-- Claim C3: when stdin is piped but its content trims to empty, the
explicit stdin flag is off and no positional token is given, read_input
does not succeed with empty text: the piped-stdin rule falls through after
reading stdin and resolution fails with the final InputError listing every
alternative input method. -/
theorem c3_piped_empty_stdin_falls_through (args : Args) (env : Env)
    (hcl : args.clipboard = false) (hstdin : args.stdin = false)
    (hin : args.input_text = none) (htty : env.stdin_isatty = false)
    (hempty : pyStrip env.stdin_content = "") :
    read_input args env = (Except.error CLIErr.noInputProvided, [Effect.readStdin]) := by
  simp [read_input, readDirectOrFile, hcl, hstdin, hin, htty, hempty]

/-- Claim C3 witness: a concrete world where the pipe carries only
whitespace and the arguments name no other source. -/
theorem c3_witness :
    read_input argsPlain envPipedEmpty
      = (Except.error CLIErr.noInputProvided, [Effect.readStdin]) :=
  c3_piped_empty_stdin_falls_through argsPlain envPipedEmpty rfl rfl rfl rfl rfl

/-- Claim C10: a translation invocation whose target language is given but
unsupported, or whose target is supported while a given nonempty source
language is unsupported, exits with code 1 after failing validation with
the unsupported-language error, and performs no clipboard, stdin or file
read at all. -/
theorem c10_unsupported_language_blocks_reads (args : Args) (env : Env)
    (hl : args.list_languages = false) (hu : args.usage = false)
    (h : (optTruthy args.target_lang = true ∧
          is_language_supported (pyUpper (args.target_lang.getD "")) = false)
       ∨ (optTruthy args.target_lang = true ∧
          is_language_supported (pyUpper (args.target_lang.getD "")) = true ∧
          ∃ s, args.source_lang = some s ∧ s ≠ "" ∧
            is_language_supported (pyUpper s) = false)) :
    mainRun args env = (1, []) ∧
    ((∃ l, validate_arguments args = Except.error (CLIErr.unsupportedTarget l)) ∨
     (∃ l, validate_arguments args = Except.error (CLIErr.unsupportedSource l))) := by
  have hv : (∃ l, validate_arguments args = Except.error (CLIErr.unsupportedTarget l)) ∨
      (∃ l, validate_arguments args = Except.error (CLIErr.unsupportedSource l)) := by
    rcases h with ⟨ht, hbad⟩ | ⟨ht, hgood, s, hsrc, hne, hbad⟩
    · left
      refine ⟨pyUpper (args.target_lang.getD ""), ?_⟩
      simp [validate_arguments, hl, hu, ht, hbad]
    · right
      refine ⟨pyUpper s, ?_⟩
      simp [validate_arguments, validateSourceLangCli, hl, hu, ht, hgood, hsrc, hne, hbad]
  refine ⟨?_, hv⟩
  rcases hv with ⟨l, hv2⟩ | ⟨l, hv2⟩ <;> simp [mainRun, hl, hv2]

/-- Claim C10 witness: the concrete unsupported target code XX in a piped
world with content available on every channel. -/
theorem c10_witness :
    mainRun argsBadTarget envPipedEmpty = (1, []) ∧
    ((∃ l, validate_arguments argsBadTarget = Except.error (CLIErr.unsupportedTarget l)) ∨
     (∃ l, validate_arguments argsBadTarget = Except.error (CLIErr.unsupportedSource l))) :=
  c10_unsupported_language_blocks_reads argsBadTarget envPipedEmpty rfl rfl
    (Or.inl ⟨by decide, by decide⟩)

end DeeplCli
